import Mathlib

/-!
Verification of the question-generation pipeline of this repository.

The embedding covers, translated statement by statement from the source:
  * `utils/jason_safety.py` — `try_load_json` and its textual repair chain
    (the regular-expression substitutions are rendered as explicit
    character-list scans with the same leftmost, non-rescanning semantics
    as `re.sub`);
  * `modules/question_generator.py` — the normalization helpers
    (`_strip_all_quotes_spaces`, `_clean_key`, `_coerce_bool`,
    `_opt_text_from_dict`, `_normalize_options`, `_infer_type`,
    `_normalize_question`, `_normalize_top_level`, `_ensure_ids`,
    `_parse_validate`) and the public `generate_questions`;
  * `modules/schemas.py` — the pydantic models, rendered as a structural
    validator (lax-mode coercions such as numeric strings for `int`
    fields are outside the model; no claim depends on them).

Python dynamic values are embedded as the inductive `Jv`; Python
truthiness, `str()`, `.strip()`, `.lower()` and dict semantics are given
explicit models.  `json.loads` (external library) is modelled by
`jsonLoads`, a strict RFC-style parser restricted to the fragment the
pipeline exercises: objects, arrays, strings with the usual single-letter
escapes, integer numerals, `true`/`false`/`null`; floating-point
literals and `\u` escapes are outside the model.  The generative service
(`GeminiHandler.generate`) is modelled as an oracle giving the text of
the n-th call; prompt construction (`_build_prompt`, pure string
formatting feeding only that oracle) is not modelled separately since no
claim mentions prompt contents.
-/

set_option maxRecDepth 4000

/-- Dynamic JSON-like value: the shape of every Python object that flows
through the pipeline after `json.loads`. Objects are association lists
with unique keys in insertion order (as Python dicts). -/
inductive Jv where
  | null
  | bool (b : Bool)
  | num (n : Int)
  | str (s : String)
  | arr (xs : List Jv)
  | obj (kvs : List (String × Jv))

/-- Python truthiness (`bool(x)`) on embedded values. -/
def truthy : Jv → Bool
  | .null => false
  | .bool b => b
  | .num n => n != 0
  | .str s => !s.isEmpty
  | .arr xs => !xs.isEmpty
  | .obj kvs => !kvs.isEmpty

/-- `d.get(k)` on a dict, with Python's `None` default rendered `Jv.null`. -/
def jGet (kvs : List (String × Jv)) (k : String) : Jv :=
  match kvs.find? (fun kv => kv.1 == k) with
  | some kv => kv.2
  | none => .null

/-- `k in d` on a dict. -/
def jHas (kvs : List (String × Jv)) (k : String) : Bool :=
  (kvs.find? (fun kv => kv.1 == k)).isSome

/-- `d.get(k, default)`. -/
def jGetD (kvs : List (String × Jv)) (k : String) (d : Jv) : Jv :=
  if jHas kvs k then jGet kvs k else d

/-- Python `a or b` on embedded values. -/
def jor (a b : Jv) : Jv :=
  if truthy a then a else b

/-- `d[k] = v` on a dict: replaces in place on an existing key, appends a
new key at the end — Python dict update semantics. -/
def dictInsert : List (String × Jv) → String → Jv → List (String × Jv)
  | [], k, v => [(k, v)]
  | (k0, v0) :: rest, k, v =>
    if k0 == k then (k0, v) :: rest else (k0, v0) :: dictInsert rest k v

mutual

/-- Python `repr` of a value (as produced by `str()` on containers).
Quote-escaping inside nested string reprs is not modelled; no claim
depends on it. -/
def pyRepr : Jv → String
  | .null => "None"
  | .bool b => if b then "True" else "False"
  | .num n => toString n
  | .str s => "'" ++ s ++ "'"
  | .arr xs => "[" ++ pyReprItems xs ++ "]"
  | .obj kvs => "\x7b" ++ pyReprPairs kvs ++ "\x7d"

def pyReprItems : List Jv → String
  | [] => ""
  | [x] => pyRepr x
  | x :: y :: rest => pyRepr x ++ ", " ++ pyReprItems (y :: rest)

def pyReprPairs : List (String × Jv) → String
  | [] => ""
  | [(k, v)] => "'" ++ k ++ "': " ++ pyRepr v
  | (k, v) :: p :: rest => "'" ++ k ++ "': " ++ pyRepr v ++ ", " ++ pyReprPairs (p :: rest)

end

/-- Python `str(x)`. -/
def pyStr : Jv → String
  | .str s => s
  | v => pyRepr v

/-- Python's `\s` character class for `str` patterns, also the set
stripped by `str.strip()`: space, tab, newline, CR, VT, FF. -/
def isPyWs (c : Char) : Bool :=
  c = ' ' || c = '\t' || c = '\n' || c = '\r' || c = '\x0b' || c = '\x0c'

/-- `str.strip()` on a character list. -/
def pyStripL (cs : List Char) : List Char :=
  ((cs.dropWhile isPyWs).reverse.dropWhile isPyWs).reverse

/-- `str.strip()`. -/
def pyStrip (s : String) : String :=
  ⟨pyStripL s.data⟩

/-- `str.lower()` (ASCII; the pipeline only lowercases ASCII tokens). -/
def pyLower (s : String) : String :=
  ⟨s.data.map Char.toLower⟩

/-- The smart-quote characters deleted by `_strip_all_quotes_spaces`
(`_SMART_QUOTES` table, question_generator.py lines 116-120). -/
def isSmartQuote (c : Char) : Bool :=
  c = '‘' || c = '’' || c = '“' || c = '”' ||
  c = '«' || c = '»'

/-- `cs` is wrapped on both ends by the quote `q` and long enough that
`t[1:-1]` is meaningful (the `len(t) >= 2` guard in the source). -/
def wrappedBy (q : Char) (cs : List Char) : Bool :=
  cs.length ≥ 2 && cs.head? == some q && cs.getLast? == some q

/-- `t[1:-1]`. -/
def dropWrap (cs : List Char) : List Char :=
  (cs.drop 1).dropLast

/-- Core of `_strip_all_quotes_spaces` acting on the characters of
`str(s)`: strip, unwrap ASCII double then single quotes (re-stripping
after each), delete smart quotes, strip again. -/
def stripQuotesSpacesL (cs0 : List Char) : List Char :=
  let t := pyStripL cs0
  let t := if wrappedBy '"' t then pyStripL (dropWrap t) else t
  let t := if wrappedBy '\'' t then pyStripL (dropWrap t) else t
  let t := t.filter (fun c => !isSmartQuote c)
  pyStripL t

/-- `QuestionGenerator._strip_all_quotes_spaces` (lines 122-134):
`None` becomes `""`, anything else is `str()`-ed and cleaned. -/
def strip_all_quotes_spaces : Jv → String
  | .null => ""
  | v => ⟨stripQuotesSpacesL (pyStr v).data⟩

/-- `_strip_all_quotes_spaces` applied to a value already known to be a
string (as on option texts during answer matching). -/
def stripAllQuotesSpacesStr (s : String) : String :=
  ⟨stripQuotesSpacesL s.data⟩

/-- `p` occurs as a contiguous substring of the character list. -/
def containsL (p : List Char) : List Char → Bool
  | [] => p.isEmpty
  | c :: rest => p.isPrefixOf (c :: rest) || containsL p rest

/-- Python `p in t` substring containment. -/
def containsSub (t p : String) : Bool :=
  containsL p.data t.data

/-- `t.split()`: split on whitespace runs, discarding empty pieces
(fuel-driven scan; the fuel is the list length, consumed at least one
character per step). -/
def splitWsF : Nat → List Char → List (List Char)
  | 0, _ => []
  | f + 1, cs =>
    match cs.dropWhile isPyWs with
    | [] => []
    | c :: rest =>
      let w := c :: rest.takeWhile (fun d => !isPyWs d)
      w :: splitWsF f (rest.dropWhile (fun d => !isPyWs d))

def splitWsL (cs : List Char) : List (List Char) :=
  splitWsF (cs.length + 1) cs

/-- `" ".join(t.split())`: collapse internal whitespace runs to single
spaces (also removes leading/trailing whitespace). -/
def collapseWs (s : String) : String :=
  String.intercalate " " ((splitWsL s.data).map (fun w => (⟨w⟩ : String)))

/-- `t.replace("_", " ")`. -/
def underscoreToSpace (s : String) : String :=
  ⟨s.data.map (fun c => if c = '_' then ' ' else c)⟩

/-- The cleaned spelling a key has when it reaches the canonicalization
rules of `_clean_key`: quote/whitespace stripped, lowercased, whitespace
collapsed, underscores turned into spaces (lines 137-140). -/
def cleanKeyCore (k : Jv) : String :=
  underscoreToSpace (collapseWs (pyLower (strip_all_quotes_spaces k)))

/-- The alias set of `_clean_key` line 148. -/
def optionAliases : List String :=
  ["label", "name", "value", "choice", "text"]

/-- The canonicalization rules of `_clean_key` (lines 141-150), applied
to the cleaned spelling. -/
def ruleKey (t : String) : String :=
  if containsSub t "option" then "option"
  else if containsSub t "correct" || containsSub t "answer" || containsSub t "is correct" then
    "is_correct"
  else if containsSub t "explanation" || containsSub t "reason" || containsSub t "why" then
    "explanation"
  else if optionAliases.contains t then "option"
  else t

/-- `QuestionGenerator._clean_key` (lines 136-150). -/
def clean_key (k : Jv) : String :=
  ruleKey (cleanKeyCore k)

/-- `QuestionGenerator._coerce_bool` (lines 152-156). -/
def coerce_bool : Jv → Bool
  | .bool b => b
  | v =>
    let s := pyLower (pyStrip (pyStr v))
    s == "1" || s == "true" || s == "yes" || s == "y" || s == "correct"

/-- The key priority list of `_opt_text_from_dict` line 160. -/
def optTextKeys : List String :=
  ["option", "text", "label", "value", "name", "choice"]

/-- `(kvs.find? k)` as an `Option` without the null default. -/
def jFind (kvs : List (String × Jv)) (k : String) : Option Jv :=
  (kvs.find? (fun kv => kv.1 == k)).map (fun kv => kv.2)

/-- `QuestionGenerator._opt_text_from_dict` (lines 158-167): first
populated value among the priority keys, else the first truthy value in
dict order, else `""`. -/
def opt_text_from_dict (od : List (String × Jv)) : String :=
  match optTextKeys.findSome?
      (fun k => (jFind od k).bind (fun v => if truthy v then some v else none)) with
  | some v => strip_all_quotes_spaces v
  | none =>
    match od.findSome? (fun kv => if truthy kv.2 then some kv.2 else none) with
    | some v => strip_all_quotes_spaces v
    | none => ""

/-- One normalized option: `_normalize_options` only ever builds dicts
of exactly the shape `{option, is_correct, explanation}` (and the final
guarantee loop of lines 230-235 re-asserts the first two keys), so the
entry is embedded as a structure. -/
structure NOpt where
  option : String
  is_correct : Bool
  explanation : Option Jv

/-- The `norm_dict` construction of `_normalize_options` lines 185-190:
keys are cleaned; an existing entry is only overwritten when the clean
key is `option` and the current option text is falsy. -/
def normDictStep (nd : List (String × Jv)) (k : String) (v : Jv) : List (String × Jv) :=
  let ck := clean_key (.str k)
  if !jHas nd ck then dictInsert nd ck v
  else if ck == "option" && !truthy (jGet nd "option") then dictInsert nd ck v
  else nd

/-- Folds a raw option object into its cleaned `norm_dict`. -/
def buildNormDict (items : List (String × Jv)) : List (String × Jv) :=
  items.foldl (fun nd kv => normDictStep nd kv.1 kv.2) []

/-- The per-item branch of `_normalize_options` (lines 177-204): a raw
string or other scalar becomes a non-correct option with stripped text;
a dict goes through key cleaning, text extraction with the
`str(item)` fallback and the `"Option"` placeholder, boolean coercion of
`is_correct`, and `explanation or None`. -/
def normalizeOptItem (item : Jv) : NOpt :=
  match item with
  | .obj kvs =>
    let nd := buildNormDict kvs
    let text0 := opt_text_from_dict nd
    let text := if text0.isEmpty then strip_all_quotes_spaces (.str (pyStr item)) else text0
    let isCorr := coerce_bool (jGetD nd "is_correct" (.bool false))
    let expl := let e := jGet nd "explanation"; if truthy e then some e else none
    { option := if text.isEmpty then "Option" else text
      is_correct := isCorr
      explanation := expl }
  | .str s => { option := strip_all_quotes_spaces (.str s), is_correct := false, explanation := none }
  | v => { option := strip_all_quotes_spaces v, is_correct := false, explanation := none }

/-- The list as built by the first phase of `_normalize_options`
(lines 169-204): empty when `options` is falsy or not a list. -/
def buildNormalized (q : List (String × Jv)) : List NOpt :=
  let opts := jGet q "options"
  if !truthy opts then []
  else
    match opts with
    | .arr items => items.map normalizeOptItem
    | _ => []

/-- `answer_text` of `_normalize_options` line 207:
`strip(q.get("answer") or q.get("correct") or "")`. -/
def answerTextOf (q : List (String × Jv)) : String :=
  strip_all_quotes_spaces (jor (jGet q "answer") (jor (jGet q "correct") (.str "")))

/-- First pass of the exactly-one-correct enforcement (lines 210-217):
the first marked-correct entry keeps the mark, every later marked entry
is cleared, everything else is untouched. -/
def keepFirstTrue : List NOpt → List NOpt
  | [] => []
  | o :: rest =>
    if o.is_correct then
      { o with is_correct := true } ::
        rest.map (fun p => if p.is_correct then { p with is_correct := false } else p)
    else o :: keepFirstTrue rest

/-- The answer-matching predicate of line 223:
`strip(opt["option"]).lower() == answer_text.lower()`. -/
def matchesAnswer (ans : String) (o : NOpt) : Bool :=
  pyLower (stripAllQuotesSpacesStr o.option) == pyLower ans

/-- Second pass (lines 221-226): mark the first option whose text
matches the answer, reporting whether one was found. -/
def markFirstMatch (ans : String) : List NOpt → List NOpt × Bool
  | [] => ([], false)
  | o :: rest =>
    if matchesAnswer ans o then ({ o with is_correct := true } :: rest, true)
    else
      let r := markFirstMatch ans rest
      (o :: r.1, r.2)

/-- Fallback of lines 227-228: promote the first option. -/
def setHeadTrue : List NOpt → List NOpt
  | [] => []
  | o :: rest => { o with is_correct := true } :: rest

/-- `QuestionGenerator._normalize_options` (lines 169-236). The final
schema-keys loop of lines 230-235 is the identity on the structure
representation (both keys always exist). -/
def normalize_options (q : List (String × Jv)) : List NOpt :=
  let normalized := buildNormalized q
  let ansText := answerTextOf q
  if normalized.isEmpty then normalized
  else
    let l1 := keepFirstTrue normalized
    if normalized.any (fun o => o.is_correct) then l1
    else if !ansText.isEmpty then
      let r := markFirstMatch ansText l1
      if r.2 then r.1 else setHeadTrue r.1
    else setHeadTrue l1

/-- `QuestionGenerator._infer_type` (lines 103-112). -/
def infer_type (q : List (String × Jv)) : Jv :=
  if truthy (jGet q "type") then jGet q "type"
  else if truthy (jGet q "options") then .str "mcq"
  else if truthy (jGet q "code") then .str "coding"
  else if truthy (jGet q "answer") then
    (if (pyStr (jGetD q "answer" (.str ""))).length < 180 then .str "short" else .str "theory")
  else .str "theory"

/-! ### Model of strict JSON decoding (`json.loads`)

A fuel-driven recursive-descent parser for the JSON fragment the
pipeline exercises: objects (duplicate keys resolved last-value-wins as
in Python dicts), arrays, strings with the single-letter escapes,
integer numerals (leading-zero rule included), `true`/`false`/`null`.
Floating-point literals and `\uXXXX` escapes are outside the model — a
text using them is rejected rather than misread; no claim exercises
them. -/

/-- JSON whitespace (as skipped by `json.loads`). -/
def isJsonWs (c : Char) : Bool :=
  c = ' ' || c = '\t' || c = '\n' || c = '\r'

def skipWs (cs : List Char) : List Char :=
  cs.dropWhile isJsonWs

/-- The single-character string escapes of JSON. -/
def escMap : Char → Option Char
  | '"' => some '"'
  | '\\' => some '\\'
  | '/' => some '/'
  | 'b' => some '\x08'
  | 'f' => some '\x0c'
  | 'n' => some '\n'
  | 'r' => some '\r'
  | 't' => some '\t'
  | _ => none

/-- Parse the body of a JSON string after the opening quote; rejects raw
control characters (as `json.loads` does in strict mode). -/
def parseStrChars : Nat → List Char → Option (List Char × List Char)
  | 0, _ => none
  | _ + 1, [] => none
  | f + 1, c :: rest =>
    if c = '"' then some ([], rest)
    else if c = '\\' then
      match rest with
      | [] => none
      | e :: rest2 =>
        match escMap e with
        | none => none
        | some ec =>
          match parseStrChars f rest2 with
          | none => none
          | some (acc, r) => some (ec :: acc, r)
    else if c.toNat < 32 then none
    else
      match parseStrChars f rest with
      | none => none
      | some (acc, r) => some (c :: acc, r)

def digitsToNat (ds : List Char) : Nat :=
  ds.foldl (fun a c => a * 10 + (c.toNat - 48)) 0

/-- Parse a JSON integer numeral: optional minus, digits, no leading
zero; a following `.`/`e`/`E` (a float literal) is outside the model and
rejected outright. -/
def parseNumber (cs : List Char) : Option (Int × List Char) :=
  let neg := cs.head? == some '-'
  let cs1 := if neg then cs.drop 1 else cs
  match cs1 with
  | [] => none
  | c :: _ =>
    if !c.isDigit then none
    else
      let ds := cs1.takeWhile Char.isDigit
      let rest := cs1.dropWhile Char.isDigit
      if ds.length > 1 && ds.head? == some '0' then none
      else
        match rest with
        | '.' :: _ => none
        | 'e' :: _ => none
        | 'E' :: _ => none
        | _ =>
          let n : Int := (digitsToNat ds : Nat)
          some (if neg then -n else n, rest)

mutual

/-- Parse one JSON value starting at a non-whitespace position. -/
def parseValue : Nat → List Char → Option (Jv × List Char)
  | 0, _ => none
  | f + 1, cs =>
    match cs with
    | [] => none
    | c :: rest =>
      if c = 'n' then
        if rest.take 3 = ['u', 'l', 'l'] then some (.null, rest.drop 3) else none
      else if c = 't' then
        if rest.take 3 = ['r', 'u', 'e'] then some (.bool true, rest.drop 3) else none
      else if c = 'f' then
        if rest.take 4 = ['a', 'l', 's', 'e'] then some (.bool false, rest.drop 4) else none
      else if c = '"' then
        match parseStrChars (f + 1) rest with
        | none => none
        | some (acc, r) => some (.str ⟨acc⟩, r)
      else if c = '[' then
        match skipWs rest with
        | ']' :: r => some (.arr [], r)
        | cs2 => parseArrayItems f cs2 []
      else if c = '\x7b' then
        match skipWs rest with
        | '\x7d' :: r => some (.obj [], r)
        | cs2 => parseObjItems f cs2 []
      else
        match parseNumber cs with
        | none => none
        | some (n, r) => some (.num n, r)

/-- Comma-separated array items, positioned at the start of an item. -/
def parseArrayItems : Nat → List Char → List Jv → Option (Jv × List Char)
  | 0, _, _ => none
  | f + 1, cs, acc =>
    match parseValue f cs with
    | none => none
    | some (v, r1) =>
      match skipWs r1 with
      | ',' :: r3 => parseArrayItems f (skipWs r3) (acc ++ [v])
      | ']' :: r3 => some (.arr (acc ++ [v]), r3)
      | _ => none

/-- Comma-separated object members, positioned at the start of a key;
duplicate keys overwrite in place (Python dict semantics). -/
def parseObjItems : Nat → List Char → List (String × Jv) → Option (Jv × List Char)
  | 0, _, _ => none
  | f + 1, cs, acc =>
    match cs with
    | '"' :: rest =>
      match parseStrChars (f + 1) rest with
      | none => none
      | some (kcs, r1) =>
        match skipWs r1 with
        | ':' :: r2 =>
          match parseValue f (skipWs r2) with
          | none => none
          | some (v, r3) =>
            let acc2 := dictInsert acc ⟨kcs⟩ v
            match skipWs r3 with
            | ',' :: r4 => parseObjItems f (skipWs r4) acc2
            | '\x7d' :: r4 => some (.obj acc2, r4)
            | _ => none
        | _ => none
    | _ => none

end

/-- Model of `json.loads` (strict decode): skip surrounding whitespace,
parse one value, require end of input. The fuel `2 * length + 16`
dominates the recursion depth (every two fuel ticks consume at least one
character). -/
def jsonLoads (s : String) : Option Jv :=
  let cs := skipWs s.data
  match parseValue (2 * s.length + 16) cs with
  | some (v, rest) => if (skipWs rest).isEmpty then some v else none
  | none => none

/-! ### The repair chain of `try_load_json` (utils/jason_safety.py)

Each `re.sub` of lines 9-11 is rendered as a left-to-right scan with the
exact match/replacement semantics of the pattern (leftmost match, no
rescanning of emitted text). -/

/-- The three-backtick fence marker. -/
def fenceL : List Char := "\x60\x60\x60".data

/-- Drop trailing whitespace of a character list. -/
def dropTrailWs (l : List Char) : List Char :=
  (l.reverse.dropWhile isPyWs).reverse

/-- The first alternative of the fence regex of line 9,
`^\x60\x60\x60(?:json)?\s*`: a leading fence with optional `json` tag and
following whitespace is removed. -/
def stripFenceLead (cs : List Char) : List Char :=
  if fenceL.isPrefixOf cs then
    let r := cs.drop 3
    let r := if "json".data.isPrefixOf r then r.drop 4 else r
    r.dropWhile isPyWs
  else cs

/-- The second alternative, `\s*\x60\x60\x60$`: a trailing fence with
preceding whitespace is removed; `$` also matches just before a final
newline, in which case that newline is kept. -/
def stripFenceTrail (cs1 : List Char) : List Char :=
  if fenceL.isSuffixOf cs1 then dropTrailWs (cs1.take (cs1.length - 3))
  else if (fenceL ++ ['\n']).isSuffixOf cs1 then
    dropTrailWs (cs1.take (cs1.length - 4)) ++ ['\n']
  else cs1

/-- `re.sub(r"^\x60\x60\x60(?:json)?\s*|\s*\x60\x60\x60$", "", s, flags=re.S)`
(line 9), both alternatives applied as the leftmost-scan performs them. -/
def stripFencesL (cs : List Char) : List Char :=
  stripFenceTrail (stripFenceLead cs)

def stripFencesStr (s : String) : String :=
  ⟨stripFencesL s.data⟩

/-- `re.sub(r",(\s*[}\]])", r"\1", s)` (line 10): drop every comma
standing immediately before (whitespace and) a closing brace or
bracket. -/
def removeTrailingCommasF : Nat → List Char → List Char
  | 0, cs => cs
  | _ + 1, [] => []
  | f + 1, c :: rest =>
    if c = ',' then
      let ws := rest.takeWhile isPyWs
      match rest.dropWhile isPyWs with
      | b :: r2 =>
        if b = '\x7d' || b = ']' then ws ++ b :: removeTrailingCommasF f r2
        else c :: removeTrailingCommasF f rest
      | [] => c :: removeTrailingCommasF f rest
    else c :: removeTrailingCommasF f rest

def removeTrailingCommasStr (s : String) : String :=
  ⟨removeTrailingCommasF (s.length + 1) s.data⟩

def isIdentStart (c : Char) : Bool := c.isAlpha || c = '_'

def isIdentChar (c : Char) : Bool := c.isAlphanum || c = '_'

/-- `re.sub(r"(\{|,)\s*([A-Za-z_][A-Za-z0-9_]*)\s*:", r'\1 "\2":', s)`
(line 11): after `\x7b` or `,`, a bare identifier key followed by a colon
is rewritten to `\x7b "key":` — the surrounding whitespace of the match is
dropped and a space and two double quotes are inserted. -/
def quoteBareKeysF : Nat → List Char → List Char
  | 0, cs => cs
  | _ + 1, [] => []
  | f + 1, c :: rest =>
    if c = '\x7b' || c = ',' then
      match rest.dropWhile isPyWs with
      | i0 :: r2 =>
        if isIdentStart i0 then
          let idTail := r2.takeWhile isIdentChar
          match (r2.dropWhile isIdentChar).dropWhile isPyWs with
          | ':' :: r5 =>
            c :: ' ' :: '"' :: i0 :: (idTail ++ '"' :: ':' :: quoteBareKeysF f r5)
          | _ => c :: quoteBareKeysF f rest
        else c :: quoteBareKeysF f rest
      | [] => c :: quoteBareKeysF f rest
    else c :: quoteBareKeysF f rest

def quoteBareKeysStr (s : String) : String :=
  ⟨quoteBareKeysF (s.length + 1) s.data⟩

/-- The full repair transformation of `try_load_json` lines 8-11, in
source order: strip surrounding whitespace, remove fence markers, drop
trailing commas, quote bare object keys. -/
def jsonRepair (s : String) : String :=
  quoteBareKeysStr (removeTrailingCommasStr (stripFencesStr (pyStrip s)))

/-- `try_load_json` (utils/jason_safety.py lines 3-15) parameterized by
the repair transformation, to state that a strictly decodable text never
depends on it. The source's error strings carry the exception texts; the
model returns a fixed marker (no claim reads the message). -/
def try_load_jsonWith (repairF : String → String) (s : String) : Option Jv × Option String :=
  match jsonLoads s with
  | some j => (some j, none)
  | none =>
    match jsonLoads (repairF s) with
    | some j => (some j, none)
    | none => (none, some "parse error -> repair failed")

/-- `try_load_json` as shipped: strict parse, then one repaired parse. -/
def try_load_json (s : String) : Option Jv × Option String :=
  try_load_jsonWith jsonRepair s

/-- Modelled from the spec (§4.1 Extractor): the brace-span extraction
the specification describes — strip code fences, find the first `\x7b`
and the last `\x7d`, return that span when properly ordered, else the
stripped text, or nothing when no brace exists and the text is empty.
No such routine exists in the source; this definition follows the
spec's words only, for comparison against the shipped parser. -/
def extract_spec (raw : String) : Option String :=
  let t := stripFencesStr (pyStrip raw)
  let cs := t.data
  match cs.findIdx? (fun c => c = '\x7b'), (cs.reverse.findIdx? (fun c => c = '\x7d')) with
  | some i, some jr =>
    let j := cs.length - 1 - jr
    if i < j then some ⟨(cs.drop i).take (j - i + 1)⟩
    else if t.isEmpty then none else some t
  | _, _ => if t.isEmpty then none else some t

/-! ### Record and envelope normalization (question_generator.py) -/

/-- Python `x == "mcq"` on a dynamic value: true only for that exact
string (Python `==` between a non-string and a string is `False`). -/
def isMcqTag : Jv → Bool
  | .str s => s == "mcq"
  | _ => false

/-- A question record as produced by `_normalize_question`: the nine
fields the pydantic `Question` model reads. Extra keys of the raw dict
are carried no further because validation ignores them. Fields the code
leaves dynamic stay `Jv`. -/
structure NQuestion where
  id : Jv
  type : Jv
  text : Jv
  difficulty : String
  is_generic : Jv
  options : Option (List NOpt)
  answer : Jv
  explanation : Jv
  code : Jv

/-- `QuestionGenerator._normalize_question` (lines 238-266). The
`.lower()` of line 246 raises in Python on a non-string; the model
renders it through `str()` — either way a non-string difficulty can
never satisfy the later literal check, so the surrounding
success/failure behavior is identical. `newId` stands for the
`uuid.uuid4().hex[:8]` draw. -/
def normalize_question (q0 : List (String × Jv)) (fallback : Jv) (newId : String) : NQuestion :=
  let q1 :=
    if !truthy (jGet q0 "text") && truthy (jGet q0 "question") then
      dictInsert q0 "text" (jGet q0 "question")
    else q0
  let difficulty := pyLower (pyStr (jor (jGet q1 "difficulty") (jor fallback (.str "medium"))))
  let ty := infer_type q1
  let isGen := if jHas q1 "is_generic" then jGet q1 "is_generic" else .bool false
  let opts :=
    if isMcqTag ty || truthy (jGet q1 "options") then
      (let r := normalize_options q1
       if r.isEmpty then none else some r)
    else none
  let text :=
    if truthy (jGet q1 "text") then jGet q1 "text"
    else jor (jGet q1 "prompt") (jor (jGet q1 "title") (.str "Question"))
  let idv := if truthy (jGet q1 "id") then jGet q1 "id" else .str newId
  { id := idv, type := ty, text := text, difficulty := difficulty, is_generic := isGen,
    options := opts, answer := jGet q1 "answer", explanation := jGet q1 "explanation",
    code := jGet q1 "code" }

/-- The envelope after `_normalize_top_level`: the required top-level
keys (original values where present, the `setdefault` values where not)
plus the normalized question list. -/
structure NData where
  topic : Jv
  context : Jv
  difficulty : Jv
  question_types : Jv
  total_questions : Jv
  generic_count : Jv
  practical_count : Jv
  generation_time : Jv
  questions : List NQuestion

/-- Python `for q in qs` over a dynamic value: lists iterate elements,
strings iterate one-character strings, dicts iterate keys; numbers and
booleans raise `TypeError` (which `generate_questions` catches like any
other parse failure). -/
def toIterList : Jv → Except String (List Jv)
  | .arr xs => .ok xs
  | .str s => .ok (s.data.map (fun c => .str ⟨[c]⟩))
  | .obj kvs => .ok (kvs.map (fun kv => .str kv.1))
  | _ => .error "TypeError: object is not iterable"

/-- `QuestionGenerator._normalize_top_level` (lines 268-300): wrap a
bare list in a default envelope, reject non-dict/non-list input, apply
the `setdefault` chain, then normalize every raw record (non-dict
records become `\x7b"text": str(q)\x7d`). `ids` supplies the uuid draw for
the i-th record. -/
def normalize_top_level (data : Jv) (difficulty : String) (ids : Nat → String) :
    Except String NData :=
  let wrapped : Except String (List (String × Jv)) :=
    match data with
    | .arr xs =>
      .ok [("topic", .str "General"), ("context", .arr []),
           ("difficulty", .str (if difficulty.isEmpty then "medium" else difficulty)),
           ("question_types", .arr []), ("questions", .arr xs)]
    | .obj kvs => .ok kvs
    | _ => .error "Unexpected JSON structure: not dict or list."
  match wrapped with
  | .error e => .error e
  | .ok d =>
    let diffJv := jGetD d "difficulty" (.str (if difficulty.isEmpty then "medium" else difficulty))
    let qv := jGet d "questions"
    let rawQs : Except String (List Jv) :=
      if !truthy qv then .ok [] else toIterList qv
    match rawQs with
    | .error e => .error e
    | .ok qs =>
      .ok
        { topic := jGetD d "topic" (.str "General")
          context := jGetD d "context" (.arr [])
          difficulty := diffJv
          question_types := jGetD d "question_types" (.arr [])
          total_questions := jGetD d "total_questions" (.num 0)
          generic_count := jGetD d "generic_count" (.num 0)
          practical_count := jGetD d "practical_count" (.num 0)
          generation_time := jGetD d "generation_time" (.num 0)
          questions :=
            (qs.enum.map (fun qi =>
              match qi.2 with
              | .obj kvs => normalize_question kvs diffJv (ids qi.1)
              | q => normalize_question [("text", .str (pyStr q))] diffJv (ids qi.1))) }

/-- `QuestionGenerator._ensure_ids` (lines 97-101): give every record
with a falsy id a fresh uuid draw (`ids2 i` for the i-th record). -/
def ensure_ids (nd : NData) (ids2 : Nat → String) : NData :=
  { nd with
    questions :=
      nd.questions.enum.map (fun qi =>
        if !truthy qi.2.id then { qi.2 with id := .str (ids2 qi.1) } else qi.2) }

/-! ### The pydantic validator (modules/schemas.py) -/

/-- `MCQOption` after validation. -/
structure VOption where
  option : String
  is_correct : Bool
  explanation : Option String

/-- `Question` after validation. -/
structure VQuestion where
  id : String
  type : String
  text : String
  difficulty : String
  is_generic : Bool
  options : Option (List VOption)
  answer : Option String
  explanation : Option String
  code : Option String

/-- `GenerationResult` after validation. `generation_time` is a float in
the source; no claim touches it and the model carries it as an integer. -/
structure VResult where
  topic : String
  context : List String
  difficulty : String
  question_types : List String
  total_questions : Int
  generic_count : Int
  practical_count : Int
  generation_time : Int
  questions : List VQuestion

/-- `str` field check. -/
def vStr : Jv → Option String
  | .str s => some s
  | _ => none

/-- `Optional[str]` field check (`None` and absent both validate to
`None`). -/
def vOptStr : Jv → Option (Option String)
  | .null => some none
  | .str s => some (some s)
  | _ => none

/-- `bool` field check. -/
def vBool : Jv → Option Bool
  | .bool b => some b
  | _ => none

/-- `int` field check (`float`/numeric-string lax coercions are outside
the model). -/
def vInt : Jv → Option Int
  | .num n => some n
  | _ => none

def vStrList : Jv → Option (List String)
  | .arr xs => xs.mapM vStr
  | _ => none

/-- The `QuestionType` literal of schemas.py line 3. -/
def questionTypeNames : List String :=
  ["mcq", "coding", "short", "theory"]

def vQType (v : Jv) : Option String :=
  (vStr v).bind (fun s => if questionTypeNames.contains s then some s else none)

def vQTypeList : Jv → Option (List String)
  | .arr xs => xs.mapM vQType
  | _ => none

/-- The difficulty literal of schemas.py line 12. -/
def difficultyNames : List String :=
  ["easy", "medium", "hard"]

/-- Validation of one option dict against `MCQOption`. -/
def vMCQOption (o : NOpt) : Option VOption :=
  match o.explanation with
  | none => some ⟨o.option, o.is_correct, none⟩
  | some e => (vOptStr e).map (fun es => ⟨o.option, o.is_correct, es⟩)

/-- Validation of one record against `Question`. -/
def vQuestion (q : NQuestion) : Option VQuestion := do
  let id ← vStr q.id
  let ty ← vQType q.type
  let tx ← vStr q.text
  let df ← if difficultyNames.contains q.difficulty then some q.difficulty else none
  let ig ← vBool q.is_generic
  let eo ←
    match q.options with
    | none => some none
    | some l => (l.mapM vMCQOption).map some
  let ans ← vOptStr q.answer
  let ex ← vOptStr q.explanation
  let cd ← vOptStr q.code
  some ⟨id, ty, tx, df, ig, eo, ans, ex, cd⟩

/-- `GenerationResult.model_validate` (the pydantic call of
question_generator.py line 308). -/
def vResult (d : NData) : Option VResult := do
  let t ← vStr d.topic
  let c ← vStrList d.context
  let df ← vStr d.difficulty
  let qt ← vQTypeList d.question_types
  let tq ← vInt d.total_questions
  let gc ← vInt d.generic_count
  let pc ← vInt d.practical_count
  let gt ← vInt d.generation_time
  let qs ← d.questions.mapM vQuestion
  some ⟨t, c, df, qt, tq, gc, pc, gt, qs⟩

/-! ### Parse/validate and the public API -/

/-- `QuestionGenerator._parse_validate` (lines 302-309): strict-or-
repaired parse, top-level normalization, id assignment, schema
validation. Any Python exception along the way surfaces as `.error`
(caught wholesale by `generate_questions`). -/
def parse_validate (raw : String) (difficulty : String) (ids1 ids2 : Nat → String) :
    Except String VResult :=
  match (try_load_json raw).1 with
  | none => .error "Model did not return valid JSON."
  | some data =>
    match normalize_top_level data difficulty ids1 with
    | .error e => .error e
    | .ok nd =>
      match vResult (ensure_ids nd ids2) with
      | some v => .ok v
      | none => .error "ValidationError"

/-- The count recomputation of `generate_questions` lines 350-354:
`generation_time`, then `total_questions = len(questions)`,
`generic_count = #\x7bis_generic\x7d`, `practical_count = total - generic`. -/
def finalizeCounts (p : VResult) (elapsed : Int) : VResult :=
  let total : Int := p.questions.length
  let gen : Int := (p.questions.filter (fun q => q.is_generic)).length
  { p with
    generation_time := elapsed
    total_questions := total
    generic_count := gen
    practical_count := total - gen }

/-- `QuestionGenerator.generate_questions` (lines 321-355). The
generative service is the oracle `oracle n` = text of the (n+1)-th
`gemini.generate` call; the prompt fed to it is pure string formatting
of the arguments and does not influence any claim. `num_questions` (and
the other prompt-only arguments, elided) reach the code only inside
that prompt. The second component of the result counts the service
calls actually made. -/
def generate_questions (oracle : Nat → String) (ids1 ids2 ids3 ids4 : Nat → String)
    (elapsed : Int) (num_questions : Nat) (difficulty_level : String) :
    Except String VResult × Nat :=
  match parse_validate (oracle 0) difficulty_level ids1 ids2 with
  | .ok p => (.ok (finalizeCounts p elapsed), 1)
  | .error _ =>
    match parse_validate (oracle 1) difficulty_level ids3 ids4 with
    | .ok p => (.ok (finalizeCounts p elapsed), 2)
    | .error e => (.error e, 2)

/-- The index the claim designates as the uniquely correct option:
first explicitly marked entry; else, with a non-empty answer text, the
first entry matching it; else the first option. Stated from the claim's
words for comparison with `normalize_options`. -/
def claimCorrectIdx (built : List NOpt) (ans : String) : Nat :=
  if built.any (fun o => o.is_correct) then built.findIdx (fun o => o.is_correct)
  else if !ans.isEmpty && built.any (matchesAnswer ans) then built.findIdx (matchesAnswer ans)
  else 0

/-! ### Claim theorems -/

/-- C5: for any input text that already strictly decodes, `try_load_json`
returns the strictly decoded structure unchanged, and the result does not
depend on the repair transformation at all (so the repair is never
applied to that text). -/
theorem C5_idempotent_parsing (s : String) (j : Jv) (h : jsonLoads s = some j) :
    (∀ r : String → String, try_load_jsonWith r s = (some j, none)) ∧
    try_load_json s = (some j, none) := by
  refine ⟨fun r => ?_, ?_⟩
  · unfold try_load_jsonWith
    rw [h]
  · unfold try_load_json try_load_jsonWith
    rw [h]

/-- Witness for C5 at the concrete strictly-decodable text `"[1]"`. -/
theorem C5_idempotent_parsing_witness :
    (∀ r : String → String, try_load_jsonWith r "[1]" = (some (.arr [.num 1]), none)) ∧
    try_load_json "[1]" = (some (.arr [.num 1]), none) :=
  C5_idempotent_parsing "[1]" (.arr [.num 1]) (by rfl)

/-- C10: a normalized record's `options` field is never the empty list —
whenever option normalization yields nothing the field is set to `None`,
so consumers see either `None` or a non-empty list. -/
theorem C10_options_none_or_nonempty (q : List (String × Jv)) (fb : Jv) (newId : String) :
    (normalize_question q fb newId).options ≠ some [] := by
  unfold normalize_question
  dsimp only
  intro h
  split at h
  all_goals split at h
  all_goals try exact Option.noConfusion h
  all_goals split at h
  all_goals try exact Option.noConfusion h
  all_goals
    rename_i hne
    injection h with h
    rw [h] at hne
    simp [List.isEmpty] at hne

/-- C9: on a record lacking a type tag, `_infer_type` uses the priority
order non-empty options ⇒ `mcq`, else code fragment ⇒ `coding`, else
answer shorter than 180 characters ⇒ `short`, else `theory`; a record
already carrying a (non-empty) type tag keeps it. -/
theorem C9_type_inference (q : List (String × Jv)) :
    (∀ t : String, jGet q "type" = .str t → t ≠ "" → infer_type q = .str t) ∧
    (jGet q "type" = .null →
      (∀ xs : List Jv, jGet q "options" = .arr xs → xs ≠ [] → infer_type q = .str "mcq") ∧
      ((jGet q "options" = .null ∨ jGet q "options" = .arr []) →
        (∀ c : String, jGet q "code" = .str c → c ≠ "" → infer_type q = .str "coding") ∧
        (jGet q "code" = .null →
          (∀ a : String, jGet q "answer" = .str a → a ≠ "" → a.length < 180 →
            infer_type q = .str "short") ∧
          (∀ a : String, jGet q "answer" = .str a → 180 ≤ a.length →
            infer_type q = .str "theory") ∧
          (jGet q "answer" = .null → infer_type q = .str "theory")))) := by
  refine ⟨?_, fun hty => ⟨?_, fun hopt => ⟨?_, fun hcode => ⟨?_, ?_, ?_⟩⟩⟩⟩
  · intro t ht htne
    unfold infer_type
    rw [ht]
    simp [truthy, String.isEmpty_iff, htne]
  · intro xs hxs hne
    unfold infer_type
    rw [hty, hxs]
    simp [truthy, hne]
  · intro c hc hcne
    unfold infer_type
    rcases hopt with h | h <;>
      · rw [hty, h, hc]
        simp [truthy, String.isEmpty_iff, hcne]
  · intro a ha hane hlen
    unfold infer_type jGetD
    have hhas : jHas q "answer" = true := by
      unfold jHas
      unfold jGet at ha
      cases hf : List.find? (fun kv => kv.1 == "answer") q with
      | none => rw [hf] at ha; exact absurd ha (by simp)
      | some kv => simp [hf]
    rcases hopt with h | h <;>
      · rw [hty, h, hcode, ha, if_pos hhas]
        simp [truthy, String.isEmpty_iff, hane, pyStr, hlen]
  · intro a ha hlen
    unfold infer_type jGetD
    by_cases hane : a = ""
    · subst hane
      exact absurd hlen (by decide)
    · have hhas : jHas q "answer" = true := by
        unfold jHas
        unfold jGet at ha
        cases hf : List.find? (fun kv => kv.1 == "answer") q with
        | none => rw [hf] at ha; exact absurd ha (by simp)
        | some kv => simp [hf]
      rcases hopt with h | h <;>
        · rw [hty, h, hcode, ha, if_pos hhas]
          simp [truthy, String.isEmpty_iff, hane, pyStr]
          omega
  · intro ha
    unfold infer_type
    rcases hopt with h | h <;>
      · rw [hty, h, hcode, ha]
        simp [truthy]

/-- Witness for C9 at concrete records exercising each inference branch. -/
theorem C9_type_inference_witness :
    infer_type [("type", .str "coding")] = .str "coding" ∧
    infer_type [("options", .arr [.str "a"])] = .str "mcq" ∧
    infer_type [("options", .arr []), ("code", .str "x = 1")] = .str "coding" ∧
    infer_type [("answer", .str "A1")] = .str "short" ∧
    infer_type [] = .str "theory" :=
  ⟨(C9_type_inference [("type", .str "coding")]).1 "coding" rfl (by decide),
   ((C9_type_inference [("options", .arr [.str "a"])]).2 rfl).1 [.str "a"] rfl (by simp),
   (((C9_type_inference [("options", .arr []), ("code", .str "x = 1")]).2 rfl).2
      (Or.inr rfl)).1 "x = 1" rfl (by decide),
   ((((C9_type_inference [("answer", .str "A1")]).2 rfl).2 (Or.inl rfl)).2 rfl).1
      "A1" rfl (by decide) (by decide),
   ((((C9_type_inference []).2 rfl).2 (Or.inl rfl)).2 rfl).2.2 rfl⟩

/-- `finalizeCounts` makes the three derived integers consistent with
the final list, whatever the validated payload claimed. -/
theorem finalizeCounts_consistent (p : VResult) (elapsed : Int) :
    (finalizeCounts p elapsed).total_questions =
      ((finalizeCounts p elapsed).questions.length : Int) ∧
    (finalizeCounts p elapsed).generic_count =
      (((finalizeCounts p elapsed).questions.filter (fun q => q.is_generic)).length : Int) ∧
    (finalizeCounts p elapsed).generic_count + (finalizeCounts p elapsed).practical_count =
      (finalizeCounts p elapsed).total_questions := by
  unfold finalizeCounts
  refine ⟨rfl, rfl, ?_⟩
  dsimp only
  omega

/-- C3: every successful `generate_questions` result has
`total_questions = len(questions)`, `generic_count` equal to the number
of questions with `is_generic`, and `generic_count + practical_count =
total_questions` — for every oracle behavior, so the three integers are
recomputed from the final list and never taken from the raw payload. -/
theorem C3_count_conservation (oracle : Nat → String) (i1 i2 i3 i4 : Nat → String)
    (elapsed : Int) (n : Nat) (diff : String) (p : VResult)
    (h : (generate_questions oracle i1 i2 i3 i4 elapsed n diff).1 = .ok p) :
    p.total_questions = (p.questions.length : Int) ∧
    p.generic_count = ((p.questions.filter (fun q => q.is_generic)).length : Int) ∧
    p.generic_count + p.practical_count = p.total_questions := by
  unfold generate_questions at h
  cases h1 : parse_validate (oracle 0) diff i1 i2 with
  | ok v =>
    rw [h1] at h
    dsimp only at h
    injection h with h
    rw [← h]
    exact finalizeCounts_consistent v elapsed
  | error e =>
    rw [h1] at h
    dsimp only at h
    cases h2 : parse_validate (oracle 1) diff i3 i4 with
    | ok v =>
      rw [h2] at h
      dsimp only at h
      injection h with h
      rw [← h]
      exact finalizeCounts_consistent v elapsed
    | error e2 =>
      rw [h2] at h
      exact Except.noConfusion h

/-- The oracle of the witnesses and counterexamples below: a payload
whose raw `total_questions`/`generic_count` are deliberately wrong
(99/50) and that delivers two records, the second generic. -/
def rawCountsOracle : Nat → String := fun _ =>
  "\x7b\"total_questions\": 99, \"generic_count\": 50, \"questions\": " ++
  "[\x7b\"text\": \"Q1\", \"answer\": \"A1\"\x7d, " ++
  "\x7b\"text\": \"Q2\", \"is_generic\": true, \"answer\": \"A2\"\x7d]\x7d"

/-- A deterministic stand-in for the `uuid.uuid4().hex[:8]` draws. -/
def uuidSeq : Nat → String := fun i => "id" ++ toString i

/-- A throwaway `VResult` used only as the default of `Option.getD` in
closed witnesses (the option is always `some` there). -/
def dummyVResult : VResult :=
  ⟨"", [], "", [], 0, 0, 0, 0, []⟩

/-- Witness for C3: on the concrete oracle whose raw payload claims 99
total and 50 generic, the returned counts are the recomputed 2/1/1. -/
theorem C3_count_conservation_witness :
    (∃ p : VResult,
      (generate_questions rawCountsOracle uuidSeq uuidSeq uuidSeq uuidSeq 7 1 "medium").1 =
        .ok p ∧
      p.total_questions = (p.questions.length : Int) ∧
      p.generic_count = ((p.questions.filter (fun q => q.is_generic)).length : Int) ∧
      p.generic_count + p.practical_count = p.total_questions ∧
      p.total_questions = 2 ∧ p.generic_count = 1 ∧ p.practical_count = 1) := by
  refine ⟨(generate_questions rawCountsOracle uuidSeq uuidSeq uuidSeq uuidSeq
      7 1 "medium").1.toOption.getD dummyVResult, by rfl, ?_⟩
  have h3 := C3_count_conservation rawCountsOracle uuidSeq uuidSeq uuidSeq uuidSeq
    7 1 "medium" _ (by rfl)
  exact ⟨h3.1, h3.2.1, h3.2.2, by rfl, by rfl, by rfl⟩

/-- C4: across one logical `generate_questions` call the service oracle
is consulted at most twice — exactly once when the first parse/validate
attempt succeeds, and exactly twice otherwise, including the terminal
failure where the second attempt also fails and no further call is
made. -/
theorem C4_bounded_remediation (oracle : Nat → String) (i1 i2 i3 i4 : Nat → String)
    (elapsed : Int) (n : Nat) (diff : String) :
    (generate_questions oracle i1 i2 i3 i4 elapsed n diff).2 ≤ 2 ∧
    ((∃ v, parse_validate (oracle 0) diff i1 i2 = .ok v) →
      (generate_questions oracle i1 i2 i3 i4 elapsed n diff).2 = 1) ∧
    (∀ e, parse_validate (oracle 0) diff i1 i2 = .error e →
      (generate_questions oracle i1 i2 i3 i4 elapsed n diff).2 = 2) ∧
    (∀ e e2, parse_validate (oracle 0) diff i1 i2 = .error e →
      parse_validate (oracle 1) diff i3 i4 = .error e2 →
      (generate_questions oracle i1 i2 i3 i4 elapsed n diff).1 = .error e2) := by
  unfold generate_questions
  cases h1 : parse_validate (oracle 0) diff i1 i2 with
  | ok v =>
    dsimp only
    refine ⟨by omega, fun _ => rfl, ?_, ?_⟩
    · intro e he
      exact Except.noConfusion he
    · intro e e2 he _
      exact Except.noConfusion he
  | error e0 =>
    cases h2 : parse_validate (oracle 1) diff i3 i4 with
    | ok v =>
      dsimp only
      refine ⟨by omega, ?_, fun _ _ => rfl, ?_⟩
      · rintro ⟨v1, hv1⟩
        exact Except.noConfusion hv1
      · intro e e2 _ he2
        exact Except.noConfusion he2
    | error e0m =>
      dsimp only
      refine ⟨by omega, ?_, fun _ _ => rfl, ?_⟩
      · rintro ⟨v1, hv1⟩
        exact Except.noConfusion hv1
      · intro e e2 _ he2
        injection he2 with h
        rw [h]

/-- An oracle whose text never parses: both attempts fail. -/
def badOracle : Nat → String := fun _ => "garbage"

/-- Witness for C4: with an unparseable oracle both calls are spent and
the run fails; with a well-formed oracle a single call suffices. -/
theorem C4_bounded_remediation_witness :
    (generate_questions badOracle uuidSeq uuidSeq uuidSeq uuidSeq 0 1 "medium").2 ≤ 2 ∧
    (generate_questions badOracle uuidSeq uuidSeq uuidSeq uuidSeq 0 1 "medium").1 =
      .error "Model did not return valid JSON." ∧
    (generate_questions rawCountsOracle uuidSeq uuidSeq uuidSeq uuidSeq 7 1 "medium").2 = 1 :=
  ⟨(C4_bounded_remediation badOracle uuidSeq uuidSeq uuidSeq uuidSeq 0 1 "medium").1,
   (C4_bounded_remediation badOracle uuidSeq uuidSeq uuidSeq uuidSeq 0 1 "medium").2.2.2
      "Model did not return valid JSON." "Model did not return valid JSON." (by rfl) (by rfl),
   (C4_bounded_remediation rawCountsOracle uuidSeq uuidSeq uuidSeq uuidSeq 7 1 "medium").2.1
      ⟨(parse_validate (rawCountsOracle 0) "medium" uuidSeq uuidSeq).toOption.getD dummyVResult,
       by rfl⟩⟩

/-- The oracle of the C2 scenario: one valid short-answer record. -/
def shortfallOracle : Nat → String := fun _ =>
  "\x7b\"questions\": [\x7b\"text\": \"Q1\", \"answer\": \"A1\"\x7d]\x7d"

/-- C2 counterexample: with 2 records requested the service delivers 1
valid record, and the returned result contains exactly 1 record — no
shortfall placeholder is appended anywhere in `generate_questions`, so
the quantity guarantee stated by the claim fails. -/
theorem C2_counterexample :
    ((generate_questions shortfallOracle uuidSeq uuidSeq uuidSeq uuidSeq 0 2 "medium").1.map
      (fun p => (p.total_questions, p.questions.length))) = .ok (1, 1) ∧
    (1 : Int) ≠ 2 :=
  ⟨by rfl, by decide⟩

/-- C2 amended: `generate_questions` performs no quantity enforcement at
all — on success it returns exactly the validated records the service
delivered (only the counts/timing fields are recomputed), appends
nothing on under-delivery, removes nothing on over-delivery, and the
requested count does not influence the result in any way. -/
theorem C2_no_quantity_enforcement (oracle : Nat → String) (i1 i2 i3 i4 : Nat → String)
    (elapsed : Int) (n nq : Nat) (diff : String) (v : VResult)
    (h : parse_validate (oracle 0) diff i1 i2 = .ok v) :
    (generate_questions oracle i1 i2 i3 i4 elapsed n diff).1 = .ok (finalizeCounts v elapsed) ∧
    (finalizeCounts v elapsed).questions = v.questions ∧
    generate_questions oracle i1 i2 i3 i4 elapsed n diff =
      generate_questions oracle i1 i2 i3 i4 elapsed nq diff := by
  refine ⟨?_, rfl, rfl⟩
  unfold generate_questions
  rw [h]

/-- Witness for the amended C2 at the concrete shortfall oracle with
requested counts 2 and 5. -/
theorem C2_no_quantity_enforcement_witness :
    (generate_questions shortfallOracle uuidSeq uuidSeq uuidSeq uuidSeq 0 2 "medium").1 =
      .ok (finalizeCounts
        ((parse_validate (shortfallOracle 0) "medium" uuidSeq uuidSeq).toOption.getD
          dummyVResult) 0) ∧
    (finalizeCounts
        ((parse_validate (shortfallOracle 0) "medium" uuidSeq uuidSeq).toOption.getD
          dummyVResult) 0).questions =
      ((parse_validate (shortfallOracle 0) "medium" uuidSeq uuidSeq).toOption.getD
          dummyVResult).questions ∧
    generate_questions shortfallOracle uuidSeq uuidSeq uuidSeq uuidSeq 0 2 "medium" =
      generate_questions shortfallOracle uuidSeq uuidSeq uuidSeq uuidSeq 0 5 "medium" :=
  C2_no_quantity_enforcement shortfallOracle uuidSeq uuidSeq uuidSeq uuidSeq 0 2 5 "medium"
    _ (by rfl)

/-- C7 counterexample: the key `"Extra_Field"` matches none of the
canonical rules (no `option`/`correct`/`answer`/`explanation`/`reason`/
`why` containment, not an alias), yet `_clean_key` returns
`"extra field"` — lowercased with the underscore replaced — not the key
unchanged, so the claim that unrecognized spellings pass through
unaltered is false. -/
theorem C7_counterexample :
    clean_key (.str "Extra_Field") = "extra field" ∧
    ("extra field" : String) ≠ "Extra_Field" ∧
    cleanKeyCore (.str "Extra_Field") = "extra field" ∧
    containsSub "extra field" "option" = false ∧
    containsSub "extra field" "correct" = false ∧
    containsSub "extra field" "answer" = false ∧
    containsSub "extra field" "is correct" = false ∧
    containsSub "extra field" "explanation" = false ∧
    containsSub "extra field" "reason" = false ∧
    containsSub "extra field" "why" = false ∧
    optionAliases.contains "extra field" = false := by
  exact ⟨by rfl, by decide, by rfl, by rfl, by rfl, by rfl, by rfl, by rfl, by rfl, by rfl,
    by rfl⟩

/-- C7 amended: a key matching no canonicalization rule passes through
in cleaned spelling (quote/whitespace-stripped, lowercased, whitespace
collapsed, underscores replaced by spaces) — no key is dropped, but its
spelling is normalized; a key already in cleaned form is returned
literally unchanged. -/
theorem C7_unrecognized_keys_cleaned (k : Jv)
    (h1 : containsSub (cleanKeyCore k) "option" = false)
    (h2 : containsSub (cleanKeyCore k) "correct" = false)
    (h3 : containsSub (cleanKeyCore k) "answer" = false)
    (h4 : containsSub (cleanKeyCore k) "is correct" = false)
    (h5 : containsSub (cleanKeyCore k) "explanation" = false)
    (h6 : containsSub (cleanKeyCore k) "reason" = false)
    (h7 : containsSub (cleanKeyCore k) "why" = false)
    (h8 : optionAliases.contains (cleanKeyCore k) = false) :
    clean_key k = cleanKeyCore k ∧
    (∀ s, k = .str s → cleanKeyCore k = s → clean_key k = s) := by
  have hmain : clean_key k = cleanKeyCore k := by
    unfold clean_key ruleKey
    rw [h1, h2, h3, h4, h5, h6, h7, h8]
    simp
  exact ⟨hmain, fun s _ hc => by rw [hmain, hc]⟩

/-- Witness for the amended C7 at the already-clean key `"id"`. -/
theorem C7_unrecognized_keys_cleaned_witness :
    clean_key (.str "id") = cleanKeyCore (.str "id") ∧
    (∀ s, Jv.str "id" = .str s → cleanKeyCore (.str "id") = s → clean_key (.str "id") = s) :=
  C7_unrecognized_keys_cleaned (.str "id") (by rfl) (by rfl) (by rfl) (by rfl) (by rfl)
    (by rfl) (by rfl) (by rfl)

/-- The noisy service text of the C6 scenario: a valid JSON object
surrounded by prose. -/
def noisyText : String := "x \x7b\"a\": 1\x7d y"

/-- C6 counterexample: on text with prose around a valid brace span, the
spec's Extractor would pass the decodable span `\x7b"a": 1\x7d` onward, but
the shipped parser transforms nothing (the repair leaves the text
byte-identical) and fails both parse attempts — no brace-span location
happens before parsing. -/
theorem C6_counterexample :
    extract_spec noisyText = some "\x7b\"a\": 1\x7d" ∧
    jsonLoads "\x7b\"a\": 1\x7d" = some (.obj [("a", .num 1)]) ∧
    (try_load_json noisyText).1 = none ∧
    jsonRepair noisyText = noisyText :=
  ⟨by rfl, by rfl, by rfl, by rfl⟩

/-- A character-list infix implies `containsL`. -/
theorem containsL_of_infix (p cs : List Char) (h : p <:+: cs) : containsL p cs = true := by
  induction cs with
  | nil =>
    have hp : p = [] := List.eq_nil_of_infix_nil h
    subst hp
    rfl
  | cons c rest ih =>
    rw [List.infix_cons_iff] at h
    unfold containsL
    rcases h with h | h
    · rw [List.isPrefixOf_iff_prefix.mpr h]
      rfl
    · rw [ih h]
      simp

/-- C6 amended: no brace-delimited span is ever located. The first
parse attempt receives the raw text unchanged; only after it fails does
the second attempt receive the whole repaired text `jsonRepair raw`
(trim, fence-strip, trailing-comma removal, bare-key quoting); and a
trimmed text containing no fence marker passes the fence stage
literally unchanged (the "return the stripped text unchanged" part of
the claim). -/
theorem C6_no_span_extraction :
    (∀ s j, jsonLoads s = some j → (try_load_json s).1 = some j) ∧
    (∀ s, jsonLoads s = none → (try_load_json s).1 = jsonLoads (jsonRepair s)) ∧
    (∀ s, containsSub (pyStrip s) "\x60\x60\x60" = false →
      stripFencesStr (pyStrip s) = pyStrip s) := by
  refine ⟨?_, ?_, ?_⟩
  · intro s j h
    unfold try_load_json try_load_jsonWith
    rw [h]
  · intro s h
    unfold try_load_json try_load_jsonWith
    rw [h]
    cases h2 : jsonLoads (jsonRepair s) <;> rfl
  · intro s h
    unfold containsSub at h
    unfold stripFencesStr stripFencesL stripFenceTrail stripFenceLead
    have hpre : fenceL.isPrefixOf (pyStrip s).data = false := by
      cases hp : fenceL.isPrefixOf (pyStrip s).data with
      | false => rfl
      | true =>
        have := containsL_of_infix fenceL (pyStrip s).data
          (List.isPrefixOf_iff_prefix.mp hp).isInfix
        rw [show ("\x60\x60\x60" : String).data = fenceL from rfl] at h
        rw [this] at h
        exact Bool.noConfusion h
    have hsuf : fenceL.isSuffixOf (pyStrip s).data = false := by
      cases hp : fenceL.isSuffixOf (pyStrip s).data with
      | false => rfl
      | true =>
        have := containsL_of_infix fenceL (pyStrip s).data
          (List.isSuffixOf_iff_suffix.mp hp).isInfix
        rw [show ("\x60\x60\x60" : String).data = fenceL from rfl] at h
        rw [this] at h
        exact Bool.noConfusion h
    have hsuf2 : (fenceL ++ ['\n']).isSuffixOf (pyStrip s).data = false := by
      cases hp : (fenceL ++ ['\n']).isSuffixOf (pyStrip s).data with
      | false => rfl
      | true =>
        have hinf : fenceL <:+: (pyStrip s).data := by
          have hs := List.isSuffixOf_iff_suffix.mp hp
          exact List.IsInfix.trans ⟨[], ['\n'], by simp⟩ hs.isInfix
        have := containsL_of_infix fenceL (pyStrip s).data hinf
        rw [show ("\x60\x60\x60" : String).data = fenceL from rfl] at h
        rw [this] at h
        exact Bool.noConfusion h
    simp [hpre, hsuf, hsuf2]

/-- Witness for the amended C6: a strictly decodable text is returned
as-is by the first attempt; an undecodable text goes to the repaired
second attempt; a fence-free trimmed text is unchanged by the fence
stage. -/
theorem C6_no_span_extraction_witness :
    (try_load_json "[1]").1 = some (.arr [.num 1]) ∧
    (try_load_json noisyText).1 = jsonLoads (jsonRepair noisyText) ∧
    stripFencesStr (pyStrip noisyText) = pyStrip noisyText :=
  ⟨C6_no_span_extraction.1 "[1]" (.arr [.num 1]) (by rfl),
   C6_no_span_extraction.2.1 noisyText (by rfl),
   C6_no_span_extraction.2.2 noisyText (by rfl)⟩

/-- `dropTrailWs` only removes characters. -/
theorem dropTrailWs_sublist (l : List Char) : List.Sublist (dropTrailWs l) l := by
  unfold dropTrailWs
  have h := (List.dropWhile_sublist (l := l.reverse) isPyWs).reverse
  rw [List.reverse_reverse] at h
  exact h

/-- `pyStripL` only removes characters. -/
theorem pyStripL_sublist (cs : List Char) : List.Sublist (pyStripL cs) cs := by
  unfold pyStripL
  have h := (List.dropWhile_sublist (l := (cs.dropWhile isPyWs).reverse) isPyWs).reverse
  rw [List.reverse_reverse] at h
  exact h.trans (List.dropWhile_sublist _)

/-- The leading fence removal only removes characters. -/
theorem stripFenceLead_sublist (cs : List Char) : List.Sublist (stripFenceLead cs) cs := by
  unfold stripFenceLead
  split
  · dsimp only
    split
    · exact ((List.dropWhile_sublist _).trans (List.drop_sublist _ _)).trans
        (List.drop_sublist _ _)
    · exact (List.dropWhile_sublist _).trans (List.drop_sublist _ _)
  · exact List.Sublist.refl cs

/-- The trailing fence removal only removes characters (in the
before-final-newline case the kept newline is the input's own). -/
theorem stripFenceTrail_sublist (d : List Char) : List.Sublist (stripFenceTrail d) d := by
  unfold stripFenceTrail
  split
  · exact (dropTrailWs_sublist _).trans (List.take_sublist _ _)
  · split
    · next hB =>
      obtain ⟨u, hu⟩ := List.isSuffixOf_iff_suffix.mp hB
      have htake : d.take (d.length - 4) = u := by
        rw [← hu, show (u ++ (fenceL ++ ['\n'])).length - 4 = u.length by simp [fenceL]]
        exact List.take_left' rfl
      rw [htake, ← hu]
      exact (dropTrailWs_sublist u).append (by decide)
    · exact List.Sublist.refl d

/-- The whole fence stage only removes characters. -/
theorem stripFencesL_sublist (cs : List Char) : List.Sublist (stripFencesL cs) cs := by
  unfold stripFencesL
  exact (stripFenceTrail_sublist _).trans (stripFenceLead_sublist cs)

/-- The trailing-comma stage only removes characters: every character of
the output is a character of the input. -/
theorem mem_of_removeTrailingCommasF {c : Char} :
    ∀ {f : Nat} {cs : List Char}, c ∈ removeTrailingCommasF f cs → c ∈ cs := by
  intro f
  induction f with
  | zero => intro cs h; simpa [removeTrailingCommasF] using h
  | succ f ih =>
    intro cs h
    cases cs with
    | nil => simpa [removeTrailingCommasF] using h
    | cons a rest =>
      unfold removeTrailingCommasF at h
      split at h
      · rename_i ha
        split at h
        · rename_i b r2 hdw
          split at h
          · rcases List.mem_append.mp h with h1 | h1
            · exact List.mem_cons_of_mem a
                ((List.takeWhile_sublist _).subset h1)
            · rcases List.mem_cons.mp h1 with h2 | h2
              · subst h2
                refine List.mem_cons_of_mem a ?_
                have hb : c ∈ rest.dropWhile isPyWs := by rw [hdw]; exact List.mem_cons_self _ _
                exact (List.dropWhile_sublist _).subset hb
              · have hr2 : c ∈ rest.dropWhile isPyWs := by
                  rw [hdw]
                  exact List.mem_cons_of_mem b (ih h2)
                exact List.mem_cons_of_mem a ((List.dropWhile_sublist _).subset hr2)
          · rcases List.mem_cons.mp h with h2 | h2
            · exact h2 ▸ List.mem_cons_self a rest
            · exact List.mem_cons_of_mem a (ih h2)
        · rcases List.mem_cons.mp h with h2 | h2
          · exact h2 ▸ List.mem_cons_self a rest
          · exact List.mem_cons_of_mem a (ih h2)
      · rcases List.mem_cons.mp h with h2 | h2
        · exact h2 ▸ List.mem_cons_self a rest
        · exact List.mem_cons_of_mem a (ih h2)

/-- The bare-key quoting stage removes whitespace and inserts only the
double-quote and space characters: every output character is an input
character, a `"` or a space. -/
theorem mem_of_quoteBareKeysF {c : Char} :
    ∀ {f : Nat} {cs : List Char}, c ∈ quoteBareKeysF f cs → c ∈ cs ∨ c = '"' ∨ c = ' ' := by
  intro f
  induction f with
  | zero => intro cs h; simp [quoteBareKeysF] at h; exact Or.inl h
  | succ f ih =>
    intro cs h
    cases cs with
    | nil => simp [quoteBareKeysF] at h
    | cons a rest =>
      unfold quoteBareKeysF at h
      have keep : c ∈ a :: quoteBareKeysF f rest → c ∈ a :: rest ∨ c = '"' ∨ c = ' ' := by
        intro hk
        rcases List.mem_cons.mp hk with h2 | h2
        · exact Or.inl (h2 ▸ List.mem_cons_self a rest)
        · rcases ih h2 with h3 | h3
          · exact Or.inl (List.mem_cons_of_mem a h3)
          · exact Or.inr h3
      split at h
      · rename_i ha
        split at h
        · rename_i i0 r2 hdw
          split at h
          · split at h
            · rename_i r5 hcol
              have hmemdw : ∀ {x : Char}, x ∈ i0 :: r2 → x ∈ a :: rest := by
                intro x hx
                refine List.mem_cons_of_mem a ?_
                exact (List.dropWhile_sublist _).subset (hdw ▸ hx)
              have hmemr2 : ∀ {x : Char}, x ∈ r2 → x ∈ a :: rest := by
                intro x hx
                exact hmemdw (List.mem_cons_of_mem i0 hx)
              have hmemcol : ∀ {x : Char}, x ∈ ':' :: r5 → x ∈ a :: rest := by
                intro x hx
                have h1 : x ∈ (r2.dropWhile isIdentChar).dropWhile isPyWs := hcol ▸ hx
                exact hmemr2
                  ((List.dropWhile_sublist _).subset ((List.dropWhile_sublist _).subset h1))
              rcases List.mem_cons.mp h with h2 | h2
              · exact Or.inl (h2 ▸ List.mem_cons_self a rest)
              · rcases List.mem_cons.mp h2 with h3 | h3
                · exact Or.inr (Or.inr h3)
                · rcases List.mem_cons.mp h3 with h4 | h4
                  · exact Or.inr (Or.inl h4)
                  · rcases List.mem_cons.mp h4 with h5 | h5
                    · exact Or.inl (hmemdw (h5 ▸ List.mem_cons_self i0 r2))
                    · rcases List.mem_append.mp h5 with h6 | h6
                      · exact Or.inl (hmemr2 ((List.takeWhile_sublist _).subset h6))
                      · rcases List.mem_cons.mp h6 with h7 | h7
                        · exact Or.inr (Or.inl h7)
                        · rcases List.mem_cons.mp h7 with h8 | h8
                          · exact Or.inl (hmemcol (h8 ▸ List.mem_cons_self ':' r5))
                          · rcases ih h8 with h9 | h9
                            · exact Or.inl
                                (hmemcol (List.mem_cons_of_mem ':' h9))
                            · exact Or.inr h9
            · exact keep h
          · exact keep h
        · exact keep h
      · exact keep h

/-- The text of the C8 counterexample: an object with a bare key, which
fails strict parsing. -/
def bareKeyText : String := "\x7ba: 1\x7d"

/-- A text carrying smart quotes, untouched by the repair chain. -/
def smartQuoteText : String := "\x7b\"a\": \"“v”\"\x7d"

/-- C8 counterexample: on the bare-key text (which fails strict
parsing), the repaired string contains a double-quote character that is
not present anywhere in the input — the bare-key-quoting fix *inserts*
characters, so the claim that the repaired string contains no characters
absent from the input is false; and the smart quotes of the second text
survive the repair untouched, so no smart-quote stripping step exists in
the repairer either. -/
theorem C8_counterexample :
    jsonLoads bareKeyText = none ∧
    jsonRepair bareKeyText = "\x7b \"a\": 1\x7d" ∧
    bareKeyText.data.contains '"' = false ∧
    (jsonRepair bareKeyText).data.contains '"' = true ∧
    jsonRepair smartQuoteText = smartQuoteText ∧
    smartQuoteText.data.contains '“' = true :=
  ⟨by rfl, by rfl, by rfl, by rfl, by rfl, by rfl⟩

/-- C8 amended: the repair applies, in source order, exactly: surrounding
whitespace strip, code-fence removal, trailing-comma removal before a
closing brace/bracket, and double-quoting of bare object keys; the last
step inserts quote and space characters (and drops whitespace around the
key), so the output's characters are always contained in the input's
characters together with `"` and the space — the repairer never invents
data beyond that quoting punctuation, and no smart-quote stripping
occurs here (that happens later, in option/value normalization). -/
theorem C8_repair_fixes :
    (∀ s, jsonRepair s =
      quoteBareKeysStr (removeTrailingCommasStr (stripFencesStr (pyStrip s)))) ∧
    (∀ (s : String) (c : Char), c ∈ (jsonRepair s).data → c ∈ s.data ∨ c = '"' ∨ c = ' ') := by
  refine ⟨fun s => rfl, fun s c h => ?_⟩
  unfold jsonRepair quoteBareKeysStr at h
  rcases mem_of_quoteBareKeysF h with h1 | h1
  · unfold removeTrailingCommasStr at h1
    have h2 := mem_of_removeTrailingCommasF h1
    unfold stripFencesStr at h2
    have h3 := (stripFencesL_sublist _).subset h2
    unfold pyStrip at h3
    exact Or.inl ((pyStripL_sublist _).subset h3)
  · exact Or.inr h1

/-- Witness for the amended C8 at the bare-key text and the character
`'a'` of its repaired form. -/
theorem C8_repair_fixes_witness :
    jsonRepair bareKeyText =
      quoteBareKeysStr (removeTrailingCommasStr (stripFencesStr (pyStrip bareKeyText))) ∧
    ('a' ∈ bareKeyText.data ∨ 'a' = '"' ∨ 'a' = ' ') :=
  ⟨C8_repair_fixes.1 bareKeyText,
   C8_repair_fixes.2 bareKeyText 'a' (by decide)⟩

/-- A list with no marked-correct entry has a zero correct count. -/
theorem countP_correct_zero {l : List NOpt} (h : l.any (fun o => o.is_correct) = false) :
    l.countP (fun o => o.is_correct) = 0 := by
  induction l with
  | nil => rfl
  | cons o rest ih =>
    simp only [List.any_cons, Bool.or_eq_false_iff] at h
    simp [List.countP_cons, h.1, ih h.2]

/-- Pass 1 is the identity when no entry is marked correct. -/
theorem keepFirstTrue_of_not_any {l : List NOpt}
    (h : l.any (fun o => o.is_correct) = false) : keepFirstTrue l = l := by
  induction l with
  | nil => rfl
  | cons o rest ih =>
    simp only [List.any_cons, Bool.or_eq_false_iff] at h
    unfold keepFirstTrue
    rw [if_neg (by simp [h.1]), ih h.2]

/-- Clearing every marked entry leaves a zero correct count. -/
theorem countP_clearAll (l : List NOpt) :
    (l.map (fun p => if p.is_correct then { p with is_correct := false } else p)).countP
      (fun o => o.is_correct) = 0 := by
  induction l with
  | nil => rfl
  | cons p r ih =>
    by_cases hp : p.is_correct <;> simp [List.countP_cons, hp, ih]

/-- Pass 1 leaves exactly one marked entry when at least one was
marked. -/
theorem keepFirstTrue_countP {l : List NOpt}
    (h : l.any (fun o => o.is_correct) = true) :
    (keepFirstTrue l).countP (fun o => o.is_correct) = 1 := by
  induction l with
  | nil => exact absurd h (by simp)
  | cons o rest ih =>
    unfold keepFirstTrue
    by_cases ho : o.is_correct
    · rw [if_pos ho]
      simp [List.countP_cons, countP_clearAll rest]
    · rw [if_neg ho]
      have hrest : rest.any (fun o => o.is_correct) = true := by
        simpa [List.any_cons, ho] using h
      simp [List.countP_cons, ho, ih hrest]

/-- Pass 1 keeps the mark on the first marked entry. -/
theorem keepFirstTrue_findIdx (l : List NOpt) :
    (keepFirstTrue l).findIdx (fun o => o.is_correct) =
      l.findIdx (fun o => o.is_correct) := by
  induction l with
  | nil => rfl
  | cons o rest ih =>
    unfold keepFirstTrue
    by_cases ho : o.is_correct
    · rw [if_pos ho]
      simp [List.findIdx_cons, ho]
    · rw [if_neg ho]
      simp [List.findIdx_cons, ho, ih]

/-- Pass 1 never changes option texts or explanations. -/
theorem keepFirstTrue_map_proj (l : List NOpt) :
    (keepFirstTrue l).map (fun o => (o.option, o.explanation)) =
      l.map (fun o => (o.option, o.explanation)) := by
  induction l with
  | nil => rfl
  | cons o rest ih =>
    unfold keepFirstTrue
    by_cases ho : o.is_correct
    · rw [if_pos ho]
      simp only [List.map_cons, List.map_map]
      refine congrArg₂ _ rfl ?_
      exact List.map_congr_left (fun p _ => by by_cases hp : p.is_correct <;> simp [hp])
    · rw [if_neg ho]
      simp [ih]

set_option maxHeartbeats 1000000 in
/-- Pass 2 reports not-found and returns the list unchanged when no
entry matches the answer text. -/
theorem markFirstMatch_of_not_any {a : String} {l : List NOpt}
    (h : l.any (matchesAnswer a) = false) : markFirstMatch a l = (l, false) := by
  induction l with
  | nil => rfl
  | cons o rest ih =>
    simp only [List.any_cons, Bool.or_eq_false_iff] at h
    unfold markFirstMatch
    rw [if_neg (by simp [h.1]), ih h.2]

set_option maxHeartbeats 1000000 in
/-- Pass 2 on an all-unmarked list with a matching entry: the result has
exactly one marked entry, at the first matching index, and reports
found. -/
theorem markFirstMatch_found {a : String} {l : List NOpt}
    (hall : l.any (fun o => o.is_correct) = false)
    (h : l.any (matchesAnswer a) = true) :
    (markFirstMatch a l).1.countP (fun o => o.is_correct) = 1 ∧
    (markFirstMatch a l).1.findIdx (fun o => o.is_correct) = l.findIdx (matchesAnswer a) ∧
    (markFirstMatch a l).2 = true := by
  induction l with
  | nil => exact absurd h (by simp)
  | cons o rest ih =>
    simp only [List.any_cons, Bool.or_eq_false_iff] at hall
    unfold markFirstMatch
    by_cases hm : matchesAnswer a o
    · rw [if_pos hm]
      refine ⟨?_, ?_, rfl⟩
      · simp [List.countP_cons, countP_correct_zero hall.2]
      · simp [List.findIdx_cons, hm]
    · rw [if_neg hm]
      have hrest : rest.any (matchesAnswer a) = true := by
        simpa [List.any_cons, hm] using h
      obtain ⟨ih1, ih2, ih3⟩ := ih hall.2 hrest
      refine ⟨?_, ?_, ih3⟩
      · simp [List.countP_cons, hall.1, ih1]
      · simp [List.findIdx_cons, hall.1, hm, ih2]

set_option maxHeartbeats 1000000 in
/-- Pass 2 never changes option texts or explanations. -/
theorem markFirstMatch_map_proj (a : String) (l : List NOpt) :
    (markFirstMatch a l).1.map (fun o => (o.option, o.explanation)) =
      l.map (fun o => (o.option, o.explanation)) := by
  induction l with
  | nil => rfl
  | cons o rest ih =>
    unfold markFirstMatch
    by_cases hm : matchesAnswer a o
    · rw [if_pos hm]
      simp
    · rw [if_neg hm]
      simp [ih]

/-- The head-promotion fallback on an all-unmarked non-empty list: one
marked entry, at index 0, texts unchanged. -/
theorem setHeadTrue_props {l : List NOpt}
    (hall : l.any (fun o => o.is_correct) = false) (hne : l ≠ []) :
    (setHeadTrue l).countP (fun o => o.is_correct) = 1 ∧
    (setHeadTrue l).findIdx (fun o => o.is_correct) = 0 ∧
    (setHeadTrue l).map (fun o => (o.option, o.explanation)) =
      l.map (fun o => (o.option, o.explanation)) := by
  cases l with
  | nil => exact absurd rfl hne
  | cons o rest =>
    simp only [List.any_cons, Bool.or_eq_false_iff] at hall
    unfold setHeadTrue
    refine ⟨?_, ?_, by simp⟩
    · simp [List.countP_cons, countP_correct_zero hall.2]
    · simp [List.findIdx_cons]

/-- C1: whenever `_normalize_options` returns a non-empty list, exactly
one output option is marked correct; the marked one is the first
explicitly-marked input option when any exists, else the first option
whose text case-insensitively equals the record's answer value when
that value is non-empty and matches, else the first option; and the
enforcement changes only the correctness flags, never the texts or
explanations. -/
theorem C1_exactly_one_correct (q : List (String × Jv))
    (h : 0 < (normalize_options q).length) :
    (normalize_options q).countP (fun o => o.is_correct) = 1 ∧
    (normalize_options q).findIdx (fun o => o.is_correct) =
      claimCorrectIdx (buildNormalized q) (answerTextOf q) ∧
    (normalize_options q).map (fun o => (o.option, o.explanation)) =
      (buildNormalized q).map (fun o => (o.option, o.explanation)) := by
  by_cases hemp : (buildNormalized q).isEmpty
  · exfalso
    have hval : normalize_options q = buildNormalized q := by
      unfold normalize_options
      simp [hemp]
    rw [hval] at h
    rw [List.isEmpty_iff] at hemp
    simp [hemp] at h
  · have hemp1 : (buildNormalized q).isEmpty = false := by
      simpa using hemp
    have hne : buildNormalized q ≠ [] := by
      intro hx
      rw [hx] at hemp1
      exact Bool.noConfusion hemp1
    by_cases hany : (buildNormalized q).any (fun o => o.is_correct)
    · have hEq : normalize_options q = keepFirstTrue (buildNormalized q) := by
        unfold normalize_options
        simp [hemp1, hany]
      have hIdx : claimCorrectIdx (buildNormalized q) (answerTextOf q) =
          (buildNormalized q).findIdx (fun o => o.is_correct) := by
        unfold claimCorrectIdx
        simp [hany]
      rw [hEq, hIdx]
      exact ⟨keepFirstTrue_countP hany, keepFirstTrue_findIdx _, keepFirstTrue_map_proj _⟩
    · have hany1 : (buildNormalized q).any (fun o => o.is_correct) = false := by
        simpa using hany
      have hl1 : keepFirstTrue (buildNormalized q) = buildNormalized q :=
        keepFirstTrue_of_not_any hany1
      by_cases hansne : (answerTextOf q).isEmpty
      · have hEq : normalize_options q = setHeadTrue (buildNormalized q) := by
          unfold normalize_options
          simp [hemp1, hany1, hansne, hl1]
        have hIdx : claimCorrectIdx (buildNormalized q) (answerTextOf q) = 0 := by
          unfold claimCorrectIdx
          simp [hany1, hansne]
        obtain ⟨c1, c2, c3⟩ := setHeadTrue_props hany1 hne
        rw [hEq, hIdx]
        exact ⟨c1, c2, c3⟩
      · have hansne1 : (answerTextOf q).isEmpty = false := by
          simpa using hansne
        by_cases hmatch : (buildNormalized q).any (matchesAnswer (answerTextOf q))
        · obtain ⟨m1, m2, m3⟩ := markFirstMatch_found hany1 hmatch
          have hEq : normalize_options q =
              (markFirstMatch (answerTextOf q) (buildNormalized q)).1 := by
            unfold normalize_options
            simp [hemp1, hany1, hansne1, hl1, m3]
          have hIdx : claimCorrectIdx (buildNormalized q) (answerTextOf q) =
              (buildNormalized q).findIdx (matchesAnswer (answerTextOf q)) := by
            unfold claimCorrectIdx
            simp [hany1, hansne1, hmatch]
          rw [hEq, hIdx]
          exact ⟨m1, m2, markFirstMatch_map_proj _ _⟩
        · have hmatch1 :
              (buildNormalized q).any (matchesAnswer (answerTextOf q)) = false := by
            simpa using hmatch
          have hmm := markFirstMatch_of_not_any hmatch1
          have hEq : normalize_options q = setHeadTrue (buildNormalized q) := by
            unfold normalize_options
            simp [hemp1, hany1, hansne1, hl1, hmm]
          have hIdx : claimCorrectIdx (buildNormalized q) (answerTextOf q) = 0 := by
            unfold claimCorrectIdx
            simp [hany1, hansne1, hmatch1]
          obtain ⟨c1, c2, c3⟩ := setHeadTrue_props hany1 hne
          rw [hEq, hIdx]
          exact ⟨c1, c2, c3⟩

/-- The record of the spec's scenario: string options with a separate
matching answer. -/
def parisRecord : List (String × Jv) :=
  [("options", .arr [.str "Paris", .str "London"]), ("answer", .str "Paris")]

/-- Witness for C1 at the concrete Paris/London record. -/
theorem C1_exactly_one_correct_witness :
    (normalize_options parisRecord).countP (fun o => o.is_correct) = 1 ∧
    (normalize_options parisRecord).findIdx (fun o => o.is_correct) =
      claimCorrectIdx (buildNormalized parisRecord) (answerTextOf parisRecord) ∧
    (normalize_options parisRecord).map (fun o => (o.option, o.explanation)) =
      (buildNormalized parisRecord).map (fun o => (o.option, o.explanation)) :=
  C1_exactly_one_correct parisRecord (by decide)
